import Mathlib

/-!
Shallow embedding of the interactive tree-selection widget implemented by
class TreeMenu in src/tree_menu.py of the bedrock-key-gen repository,
together with theorems settling the frozen claims about it.

The embedding follows the source line by line: the constructor builds the
insertion-ordered providers mapping, get_flat_menu projects the state to a
row list, and one step of the blocking input loop in _run_menu is a pure
function from a key to either a continuing state, a returned result, or an
uncaught IndexError.
-/

namespace TreeMenuModel

/-- A Python value as used for entry values in this program: the catalogs
passed to the widget carry string values (menu options, region names, model
identifiers) or integer values (session durations in seconds). -/
inductive PyVal where
  | int (n : Int)
  | str (s : String)
deriving DecidableEq, Repr

/-- Python truthiness of a value: the integer 0 and the empty string are
falsy, everything else is truthy. -/
def PyVal.truthy : PyVal → Bool
  | .int n => n != 0
  | .str s => s != ""

/-- One catalog entry: a dict with a label, a value, and an optional
groupName key. -/
structure Item where
  label : String
  value : PyVal
  groupName : Option String
deriving DecidableEq, Repr

/-- Effect of providers[key].append(item) on an insertion-ordered
dict-of-lists, as defaultdict(list) behaves in TreeMenu.__init__
(src/tree_menu.py lines 13-18). -/
def addToProviders : List (String × List Item) → String → Item → List (String × List Item)
  | [], k, it => [(k, [it])]
  | (k2, xs) :: rest, k, it =>
    if k2 = k then (k2, xs ++ [it]) :: rest
    else (k2, xs) :: addToProviders rest k it

/-- The providers mapping built by the constructor loop: each item is
appended under its groupName, or under the empty string when it carries
none. -/
def buildProviders (items : List Item) : List (String × List Item) :=
  items.foldl (fun ps it => addToProviders ps (it.groupName.getD "") it) []

/-- use_groups becomes true as soon as one item carries a groupName
(src/tree_menu.py lines 14-15). -/
def usesGroups (items : List Item) : Bool :=
  items.any (fun it => it.groupName.isSome)

/-- Read access to the providers mapping; absent keys read as empty
member lists. -/
def providerItems (ps : List (String × List Item)) (k : String) : List Item :=
  match ps.find? (fun p => p.1 = k) with
  | some p => p.2
  | none => []

/-- The providers dict as it stands after src/tree_menu.py line 19: when
use_groups is false the expression providers[ (empty string) ] creates the
empty-string key in the defaultdict if it is still absent. -/
def mkProviders (items : List Item) : List (String × List Item) :=
  let ps := buildProviders items
  if usesGroups items then ps
  else if ps.any (fun p => p.1 = "") then ps
  else ps ++ [("", [])]

/-- The widget instance: construction-time data (providers, use_groups,
include_all, single_select) plus the mutable Tree State fields of
src/tree_menu.py lines 12 and 20-24. -/
structure TreeMenu where
  providers : List (String × List Item)
  use_groups : Bool
  include_all : Bool
  single_select : Bool
  selected_item : Option PyVal
  expanded : Finset String
  current_selection : Nat
  top_line : Nat
  selected_items : Finset PyVal
  selected_groups : Finset String
deriving DecidableEq

/-- TreeMenu.__init__: fresh state with nothing expanded, cursor and
viewport at the top, and empty selection sets. -/
def mkTreeMenu (items : List Item) (include_all single_select : Bool) : TreeMenu :=
  { providers := mkProviders items
    use_groups := usesGroups items
    include_all := include_all
    single_select := single_select
    selected_item := none
    expanded := ∅
    current_selection := 0
    top_line := 0
    selected_items := ∅
    selected_groups := ∅ }

/-- One row of the flat view: the synthetic All row, a group header row
(tag provider in the source), or an item row (tag model). -/
inductive Row where
  | all
  | provider (g : String)
  | model (it : Item)
deriving DecidableEq, Repr

/-- The pseudo item carried by the All row (src/tree_menu.py line 29). -/
def allItem : Item := { label := "All", value := .str "*", groupName := none }

/-- TreeMenu.get_flat_menu (src/tree_menu.py lines 26-39): optional All
row, then either group headers (each followed by its members when
expanded) in first-seen key order, or the plain ungrouped item list. -/
def TreeMenu.get_flat_menu (m : TreeMenu) : List Row :=
  (if m.include_all then [Row.all] else []) ++
  (if m.use_groups then
    (m.providers.map Prod.fst).flatMap (fun g =>
      Row.provider g ::
        (if g ∈ m.expanded then (providerItems m.providers g).map Row.model else []))
  else
    (providerItems m.providers "").map Row.model)

/-- The keys the loop in _run_menu dispatches on. -/
inductive Key where
  | up
  | down
  | right
  | left
  | space
  | enter
deriving DecidableEq, Repr

/-- Outcome of one loop iteration: continue with a new state (the flag
records whether the inline validation message was displayed), return a
result to the caller, or raise an uncaught IndexError from indexing the
flat menu out of range. -/
inductive StepResult where
  | cont (m : TreeMenu) (validationMsg : Bool)
  | done (values : Finset PyVal)
  | indexError
deriving DecidableEq

/-- The multi-select space handler for a model or All row
(src/tree_menu.py lines 129-150): the wildcard toggle, or an individual
value flip followed by the group-mark bookkeeping and the discard of the
wildcard from both sets. -/
def toggleItem (m : TreeMenu) (item : Item) : TreeMenu :=
  if item.value = .str "*" then
    if .str "*" ∈ m.selected_items then
      { m with selected_items := ∅, selected_groups := ∅ }
    else
      { m with selected_items := {.str "*"},
               selected_groups := (m.providers.map Prod.fst).toFinset }
  else
    if item.value ∈ m.selected_items then
      let si := m.selected_items.erase item.value
      let sg :=
        match item.groupName with
        | some g =>
          if (providerItems m.providers g).all (fun mo => mo.value ∉ si) then
            m.selected_groups.erase g
          else m.selected_groups
        | none => m.selected_groups
      { m with selected_items := si.erase (.str "*"), selected_groups := sg.erase "*" }
    else
      let si := insert item.value m.selected_items
      let sg :=
        match item.groupName with
        | some g =>
          if (providerItems m.providers g).all (fun mo => mo.value ∈ si) then
            insert g m.selected_groups
          else m.selected_groups
        | none => m.selected_groups
      { m with selected_items := si.erase (.str "*"), selected_groups := sg.erase "*" }

/-- The space handler (src/tree_menu.py lines 113-150): in single-select
mode only model and All rows set selected_item; in multi-select mode a
group header row toggles the whole group in bulk and other rows go
through toggleItem. -/
def toggleRow (m : TreeMenu) (r : Row) : TreeMenu :=
  if m.single_select then
    match r with
    | .provider _ => m
    | .all => { m with selected_item := some allItem.value }
    | .model it => { m with selected_item := some it.value }
  else
    match r with
    | .provider g =>
      if g ∈ m.selected_groups then
        { m with
          selected_groups := m.selected_groups.erase g,
          selected_items :=
            (providerItems m.providers g).foldl (fun s it => s.erase it.value)
              m.selected_items }
      else
        { m with
          selected_groups := insert g m.selected_groups,
          selected_items :=
            (providerItems m.providers g).foldl (fun s it => insert it.value s)
              m.selected_items }
    | .all => toggleItem m allItem
    | .model it => toggleItem m it

/-- One iteration of the input loop in TreeMenu._run_menu
(src/tree_menu.py lines 94-165), parameterised by the terminal height
curses.LINES. Arrow up and down move the cursor with the viewport
adjustment of lines 99-106; right and left index the flat menu at the
cursor (an IndexError when out of range) and mutate expanded on a group
header row; space indexes the flat menu and dispatches to toggleRow;
enter either returns the selection or continues with the inline
validation message. -/
def step (lines : Nat) (m : TreeMenu) (k : Key) : StepResult :=
  let flat := m.get_flat_menu
  match k with
  | .up =>
    if 0 < m.current_selection then
      let c := m.current_selection - 1
      let t := if c < m.top_line then c else m.top_line
      .cont { m with current_selection := c, top_line := t } false
    else .cont m false
  | .down =>
    if m.current_selection < flat.length - 1 then
      let c := m.current_selection + 1
      let t := if m.top_line + lines - 3 ≤ c then c + 4 - lines else m.top_line
      .cont { m with current_selection := c, top_line := t } false
    else .cont m false
  | .right =>
    match flat[m.current_selection]? with
    | none => .indexError
    | some (.provider g) => .cont { m with expanded := insert g m.expanded } false
    | some _ => .cont m false
  | .left =>
    match flat[m.current_selection]? with
    | none => .indexError
    | some (.provider g) => .cont { m with expanded := m.expanded.erase g } false
    | some _ => .cont m false
  | .space =>
    match flat[m.current_selection]? with
    | none => .indexError
    | some r => .cont (toggleRow m r) false
  | .enter =>
    if m.single_select then
      match m.selected_item with
      | some v => if v.truthy then .done {v} else .cont m true
      | none => .cont m true
    else
      if m.selected_items = ∅ then .cont m true else .done m.selected_items

/-- Run a list of keys through the loop; none once the loop returns or
faults before the keys are exhausted. -/
def applyKeys (lines : Nat) (m : TreeMenu) : List Key → Option TreeMenu
  | [] => some m
  | k :: ks =>
    match step lines m k with
    | .cont m2 _ => applyKeys lines m2 ks
    | _ => none

/-- The page size the scrolling logic of lines 105-106 works with:
curses.LINES minus the three header and footer lines. -/
def pageSize (lines : Nat) : Nat := lines - 3

/-- Viewport containment: the cursor lies in the visible window
starting at top_line. -/
def viewportInv (lines : Nat) (m : TreeMenu) : Prop :=
  m.top_line ≤ m.current_selection ∧
    m.current_selection < m.top_line + pageSize lines

/-- Entry A of the spec scenario catalog: value 1, group groupX. -/
def itemA : Item := { label := "A", value := .int 1, groupName := some "groupX" }

/-- Entry B of the spec scenario catalog: value 2, group groupX. -/
def itemB : Item := { label := "B", value := .int 2, groupName := some "groupX" }

/-- Entry C of the spec scenario catalog: value 3, group groupY. -/
def itemC : Item := { label := "C", value := .int 3, groupName := some "groupY" }

/-- The three-entry grouped catalog used by the scenarios in the spec. -/
def catalogXY : List Item := [itemA, itemB, itemC]

/-- An entry carrying no group tag, for mixed-catalog inputs. -/
def itemU : Item := { label := "U", value := .int 9, groupName := none }

/-- The spec scenario widget: the three-entry grouped catalog in
multi-select mode without the All row. -/
def m0 : TreeMenu := mkTreeMenu catalogXY false false

/-- The spec scenario widget with the All row: the three-entry grouped
catalog in multi-select mode with include_all set. -/
def mAll : TreeMenu := mkTreeMenu catalogXY true false

/-- The misuse input of the error-handling claim: an empty catalog in
single-select mode with no All row. -/
def mEmpty : TreeMenu := mkTreeMenu [] false true

/-- A single-select widget over a grouped one-entry catalog. -/
def m8 : TreeMenu := mkTreeMenu [itemA] false true

/-- A single-select widget whose selected_item has been set to the falsy
integer value 0. -/
def m10 : TreeMenu :=
  { mkTreeMenu [itemA] false true with selected_item := some (.int 0) }

/-- Helper: the effect of the space key on the All row in multi-select
mode, read off src/tree_menu.py lines 131-137: the branch condition is
membership of the wildcard in selected_items, and the select branch
installs the wildcard sentinel, not the individual entry values. -/
theorem step_space_all (lines : Nat) (m : TreeMenu)
    (hmode : m.single_select = false)
    (hrow : m.get_flat_menu[m.current_selection]? = some Row.all) :
    step lines m .space =
      .cont (if PyVal.str "*" ∈ m.selected_items then
               { m with selected_items := ∅, selected_groups := ∅ }
             else
               { m with selected_items := {.str "*"},
                        selected_groups := (m.providers.map Prod.fst).toFinset })
        false := by
  simp [step, hrow, toggleRow, hmode, toggleItem, allItem]

/-- Claim C1 counterexample: in the scenario catalog, toggling the groupX
row and then toggling item B leaves selectedGroups = {groupX}, not the
empty set the claim requires, so the stated iff invariant fails after that
mutation (groupX stays marked although member value 2 is unselected). -/
theorem C1_counterexample :
    (applyKeys 24 m0 [.space, .right, .down, .down, .space]).map
        (fun s => (s.selected_items, s.selected_groups))
      = some ({.int 1}, {"groupX"})
    ∧ ({"groupX"} : Finset String) ≠ (∅ : Finset String) := by
  decide

/-- Claim C1 (amended): toggling the groupX row and then toggling item B
leaves selectedValues = {1} and selectedGroups = {groupX}: incomplete
coverage does not remove the group mark, because an item un-toggle drops
the mark only when no member value of the group remains selected.
Toggling item B once more returns to selectedValues = {1, 2} with groupX
still marked. -/
theorem C1_amended_scenario :
    (applyKeys 24 m0 [.space, .right, .down, .down, .space]).map
        (fun s => (s.selected_items, s.selected_groups,
          (providerItems s.providers "groupX").all
            (fun it => it.value ∈ s.selected_items)))
      = some ({.int 1}, {"groupX"}, false)
    ∧ (applyKeys 24 m0 [.space, .right, .down, .down, .space, .space]).map
        (fun s => (s.selected_items, s.selected_groups))
      = some ({.int 2, .int 1}, {"groupX"}) := by
  decide

/-- Claim C2 counterexample: with the scenario catalog and include_all
set, one All toggle from the empty state yields the wildcard sentinel set
{ * } as selectedValues, not the entry values {1, 2, 3} the claim
requires. -/
theorem C2_counterexample :
    (applyKeys 24 mAll [.space]).map
        (fun s => (s.selected_items, s.selected_groups))
      = some ({.str "*"}, {"groupX", "groupY"})
    ∧ ({PyVal.str "*"} : Finset PyVal) ≠ {.int 1, .int 2, .int 3} := by
  decide

/-- Claim C2 (amended): in multi-select mode, toggling the All row when
the wildcard is in selectedValues clears all selection state; otherwise
it sets selectedValues to the singleton wildcard sentinel and
selectedGroups to every group name. The branch tests wildcard membership,
never the count of selected values, and the select branch never expands
to the individual entry values. -/
theorem C2_amended (lines : Nat) (m : TreeMenu)
    (hmode : m.single_select = false)
    (hrow : m.get_flat_menu[m.current_selection]? = some Row.all) :
    step lines m .space =
      .cont (if PyVal.str "*" ∈ m.selected_items then
               { m with selected_items := ∅, selected_groups := ∅ }
             else
               { m with selected_items := {.str "*"},
                        selected_groups := (m.providers.map Prod.fst).toFinset })
        false :=
  step_space_all lines m hmode hrow

/-- Claim C2 witness: the amended statement applied to the fresh scenario
widget with the All row under the cursor. -/
theorem C2_amended_witness :
    step 24 mAll .space =
      .cont (if PyVal.str "*" ∈ mAll.selected_items then
               { mAll with selected_items := ∅, selected_groups := ∅ }
             else
               { mAll with selected_items := {.str "*"},
                           selected_groups := (mAll.providers.map Prod.fst).toFinset })
        false :=
  C2_amended 24 mAll rfl (by decide)

/-- Claim C5: the confirm key never returns a result in single-select
mode while selected_item is unset, nor in multi-select mode while
selected_items is empty; in both cases the loop continues in the same
state with the inline validation message displayed, and no failure is
propagated to the caller. -/
theorem C5_confirm_guard (lines : Nat) (m : TreeMenu)
    (h : (m.single_select = true ∧ m.selected_item = none) ∨
         (m.single_select = false ∧ m.selected_items = ∅)) :
    step lines m .enter = .cont m true := by
  rcases h with ⟨h1, h2⟩ | ⟨h1, h2⟩ <;> simp [step, h1, h2]

/-- Claim C5 witness: the fresh multi-select scenario widget has an empty
selection, and confirm continues with the validation message. -/
theorem C5_confirm_guard_witness : step 24 m0 .enter = .cont m0 true :=
  C5_confirm_guard 24 m0 (Or.inr ⟨rfl, rfl⟩)

/-- Claim C7: evaluation of the widget at the misuse input (empty catalog,
single-select, no All row). The loop is entered with an empty flat view
and no signal to the caller; the confirm key loops forever with the
validation message, and the expand, collapse, and toggle keys index the
empty flat menu out of range, an uncaught IndexError, contradicting the
claim that the misuse is signaled before the loop and that no key
faults. -/
theorem C7_empty_catalog_faults :
    mEmpty.get_flat_menu = [] ∧
    step 24 mEmpty .right = .indexError ∧
    step 24 mEmpty .left = .indexError ∧
    step 24 mEmpty .space = .indexError ∧
    step 24 mEmpty .enter = .cont mEmpty true ∧
    step 24 mEmpty .up = .cont mEmpty false ∧
    step 24 mEmpty .down = .cont mEmpty false := by
  decide

/-- Claim C8 counterexample: in single-select mode, pressing the expand
key with a group header row under the cursor does change the Tree State:
the group is added to the expanded set, although the claim says
expand/collapse is disabled entirely in this mode. -/
theorem C8_counterexample :
    m8.single_select = true ∧
    step 24 m8 .right = .cont { m8 with expanded := {"groupX"} } false ∧
    ({"groupX"} : Finset String) ≠ m8.expanded := by
  decide

/-- Claim C8 (amended): expand and collapse are not disabled in
single-select mode: whenever the row under the cursor is a group header
row, the expand key adds the group to the expanded set and the collapse
key removes it, in either mode, because the handler on
src/tree_menu.py lines 107-112 never consults single_select. -/
theorem C8_amended (lines : Nat) (m : TreeMenu) (g : String)
    (hrow : m.get_flat_menu[m.current_selection]? = some (Row.provider g)) :
    step lines m .right = .cont { m with expanded := insert g m.expanded } false ∧
    step lines m .left = .cont { m with expanded := m.expanded.erase g } false := by
  constructor <;> simp [step, hrow]

/-- Claim C8 witness: the amended statement applied to a single-select
widget with a group header row under the cursor. -/
theorem C8_amended_witness :
    step 24 m8 .right = .cont { m8 with expanded := insert "groupX" m8.expanded } false ∧
    step 24 m8 .left = .cont { m8 with expanded := m8.expanded.erase "groupX" } false :=
  C8_amended 24 m8 "groupX" (by decide)

/-- Claim C10: the single-select confirm guard tests Python truthiness of
the selected value, not whether a selection was made: when selected_item
holds a falsy value the confirm key does not return and instead continues
with the validation message. -/
theorem C10_falsy_confirm (lines : Nat) (m : TreeMenu) (v : PyVal)
    (hmode : m.single_select = true) (hsel : m.selected_item = some v)
    (hfalsy : v.truthy = false) :
    step lines m .enter = .cont m true := by
  simp [step, hmode, hsel, hfalsy]

/-- Claim C10 witness: a widget whose selected_item is the integer 0
continues with the validation message on confirm. -/
theorem C10_falsy_confirm_witness : step 24 m10 .enter = .cont m10 true :=
  C10_falsy_confirm 24 m10 (.int 0) rfl rfl rfl


/-- Helper: a fold of erasures only shrinks the set. -/
theorem erase_foldl_subset (l : List Item) (s : Finset PyVal) :
    l.foldl (fun t x => t.erase x.value) s ⊆ s := by
  induction l generalizing s with
  | nil => exact fun a ha => ha
  | cons x xs ih =>
    intro a ha
    simp only [List.foldl_cons] at ha
    exact Finset.erase_subset _ _ (ih (s.erase x.value) ha)

/-- Helper: after folding erasures of every value of a list over a set,
no value of the list remains. -/
theorem value_not_mem_erase_foldl (l : List Item) (s : Finset PyVal) (it : Item)
    (h : it ∈ l) : it.value ∉ l.foldl (fun t x => t.erase x.value) s := by
  induction l generalizing s with
  | nil => cases h
  | cons x xs ih =>
    simp only [List.foldl_cons]
    rcases List.mem_cons.mp h with h1 | h1
    · subst h1
      intro hmem
      exact Finset.not_mem_erase _ _ (erase_foldl_subset xs (s.erase it.value) hmem)
    · exact ih _ h1

/-- Helper: a fold of insertions only grows the set. -/
theorem subset_insert_foldl (l : List Item) (s : Finset PyVal) :
    s ⊆ l.foldl (fun t x => insert x.value t) s := by
  induction l generalizing s with
  | nil => exact fun a ha => ha
  | cons x xs ih =>
    intro a ha
    simp only [List.foldl_cons]
    exact ih (insert x.value s) (Finset.mem_insert_of_mem ha)

/-- Helper: after folding insertions of every value of a list over a set,
every value of the list is present. -/
theorem value_mem_insert_foldl (l : List Item) (s : Finset PyVal) (it : Item)
    (h : it ∈ l) : it.value ∈ l.foldl (fun t x => insert x.value t) s := by
  induction l generalizing s with
  | nil => cases h
  | cons x xs ih =>
    simp only [List.foldl_cons]
    rcases List.mem_cons.mp h with h1 | h1
    · subst h1
      exact subset_insert_foldl xs _ (Finset.mem_insert_self _ _)
    · exact ih _ h1

/-- Claim C3 counterexample: after toggling the groupX row, un-toggling
item B and returning to the groupX row, the group is not fully selected,
yet toggling the group row clears the selection instead of adding every
member value as the claim requires: the branch tests membership of the
group in selectedGroups, not full coverage. -/
theorem C3_counterexample :
    (applyKeys 24 m0 [.space, .right, .down, .down, .space]).map
        (fun s => (providerItems s.providers "groupX").all
          (fun it => it.value ∈ s.selected_items))
      = some false
    ∧ (applyKeys 24 m0 [.space, .right, .down, .down, .space, .up, .up, .space]).map
        (fun s => (s.selected_items, s.selected_groups))
      = some (∅, ∅)
    ∧ ¬ ((.int 1 : PyVal) ∈ (∅ : Finset PyVal)) := by
  decide

/-- Claim C3 (amended): toggling a group header row is a bulk atomic
operation branching on membership of the group in selectedGroups (not on
full coverage): if the group is marked, every member value is cleared
from selectedValues and the mark is removed; otherwise every member value
is added and the mark is set. A group left in a state of incomplete
coverage never results directly from the group toggle itself. -/
theorem C3_amended (lines : Nat) (m : TreeMenu) (g : String)
    (hmode : m.single_select = false)
    (hrow : m.get_flat_menu[m.current_selection]? = some (Row.provider g)) :
    ∃ m2, step lines m .space = .cont m2 false ∧
      (if g ∈ m.selected_groups then
        g ∉ m2.selected_groups ∧
          ∀ it ∈ providerItems m.providers g, it.value ∉ m2.selected_items
      else
        g ∈ m2.selected_groups ∧
          ∀ it ∈ providerItems m.providers g, it.value ∈ m2.selected_items) := by
  refine ⟨toggleRow m (Row.provider g), by simp [step, hrow], ?_⟩
  by_cases hg : g ∈ m.selected_groups
  · simp only [toggleRow, hmode, Bool.false_eq_true, if_false, hg, if_true]
    exact ⟨Finset.not_mem_erase _ _,
      fun it hit => value_not_mem_erase_foldl _ _ _ hit⟩
  · simp only [toggleRow, hmode, Bool.false_eq_true, if_false, hg, if_false]
    exact ⟨Finset.mem_insert_self _ _,
      fun it hit => value_mem_insert_foldl _ _ _ hit⟩

/-- Claim C3 witness: the amended statement applied to the fresh scenario
widget with the groupX header row under the cursor. -/
theorem C3_amended_witness :
    ∃ m2, step 24 m0 .space = .cont m2 false ∧
      (if "groupX" ∈ m0.selected_groups then
        "groupX" ∉ m2.selected_groups ∧
          ∀ it ∈ providerItems m0.providers "groupX", it.value ∉ m2.selected_items
      else
        "groupX" ∈ m2.selected_groups ∧
          ∀ it ∈ providerItems m0.providers "groupX", it.value ∈ m2.selected_items) :=
  C3_amended 24 m0 "groupX" rfl (by decide)

/-- Claim C4 counterexample: with every entry value selected (and the
count equal to the catalog size), toggling the All row does not clear the
selection: it installs the wildcard sentinel, and a second toggle then
clears everything, so two consecutive All toggles do not return to the
original state. -/
theorem C4_counterexample :
    (applyKeys 24 mAll [.down, .space, .down, .space]).map
        (fun s => (s.selected_items, s.selected_groups))
      = some ({.int 3, .int 2, .int 1}, {"groupY", "groupX"})
    ∧ (applyKeys 24 mAll [.down, .space, .down, .space, .up, .up, .space]).map
        (fun s => s.selected_items)
      = some {.str "*"}
    ∧ (applyKeys 24 mAll
          [.down, .space, .down, .space, .up, .up, .space, .space]).map
        (fun s => (s.selected_items, s.selected_groups))
      = some (∅, ∅)
    ∧ ({PyVal.str "*"} : Finset PyVal) ≠ (∅ : Finset PyVal)
    ∧ ((∅ : Finset PyVal), (∅ : Finset String))
        ≠ ({.int 3, .int 2, .int 1}, {"groupY", "groupX"}) := by
  decide

/-- Helper: the All toggle with the wildcard present clears both
selection sets. -/
theorem step_space_all_mem (lines : Nat) (m : TreeMenu)
    (hmode : m.single_select = false)
    (hrow : m.get_flat_menu[m.current_selection]? = some Row.all)
    (hstar : PyVal.str "*" ∈ m.selected_items) :
    step lines m .space =
      .cont { m with selected_items := ∅, selected_groups := ∅ } false := by
  rw [step_space_all lines m hmode hrow, if_pos hstar]

/-- Helper: the All toggle with the wildcard absent installs the wildcard
sentinel and marks every group name. -/
theorem step_space_all_not_mem (lines : Nat) (m : TreeMenu)
    (hmode : m.single_select = false)
    (hrow : m.get_flat_menu[m.current_selection]? = some Row.all)
    (hstar : PyVal.str "*" ∉ m.selected_items) :
    step lines m .space =
      .cont
        { m with
          selected_items := {.str "*"},
          selected_groups := (m.providers.map Prod.fst).toFinset }
        false := by
  rw [step_space_all lines m hmode hrow, if_neg hstar]

/-- Helper: updating only the selection sets leaves the flat view
unchanged. -/
theorem get_flat_menu_selection_update (m : TreeMenu)
    (si : Finset PyVal) (sg : Finset String) :
    TreeMenu.get_flat_menu { m with selected_items := si, selected_groups := sg }
      = m.get_flat_menu := rfl

/-- Claim C4 (amended): toggling the All row when the wildcard is in
selectedValues clears everything, and toggling it when the wildcard is
absent installs the wildcard sentinel with every group name marked; hence
two consecutive All toggles end at the sentinel state when the wildcard
was present initially and at the empty state otherwise. They return to
the original state only when the original state is one of those two. -/
theorem C4_amended (lines : Nat) (m : TreeMenu)
    (hmode : m.single_select = false)
    (hrow : m.get_flat_menu[m.current_selection]? = some Row.all) :
    ∃ m2, applyKeys lines m [.space, .space] = some m2 ∧
      (PyVal.str "*" ∈ m.selected_items →
        m2.selected_items = {.str "*"} ∧
        m2.selected_groups = (m.providers.map Prod.fst).toFinset) ∧
      (PyVal.str "*" ∉ m.selected_items →
        m2.selected_items = ∅ ∧ m2.selected_groups = ∅) := by
  by_cases hstar : PyVal.str "*" ∈ m.selected_items
  · have h1 := step_space_all_mem lines m hmode hrow hstar
    have h2 := step_space_all_not_mem lines
      { m with selected_items := ∅, selected_groups := ∅ } hmode hrow
      (Finset.not_mem_empty _)
    refine
      ⟨{ m with
          selected_items := {.str "*"},
          selected_groups := (m.providers.map Prod.fst).toFinset },
        ?_, fun _ => ⟨rfl, rfl⟩, fun hc => absurd hstar hc⟩
    simp only [applyKeys, h1, h2]
  · have h1 := step_space_all_not_mem lines m hmode hrow hstar
    have h2 := step_space_all_mem lines
      { m with selected_items := {.str "*"},
               selected_groups := (m.providers.map Prod.fst).toFinset } hmode hrow
      (Finset.mem_singleton_self _)
    refine ⟨{ m with selected_items := ∅, selected_groups := ∅ },
      ?_, fun hc => absurd hc hstar, fun _ => ⟨rfl, rfl⟩⟩
    simp only [applyKeys, h1, h2]

/-- Claim C4 witness: the amended statement applied to the fresh scenario
widget with the All row under the cursor (wildcard initially absent). -/
theorem C4_amended_witness :
    ∃ m2, applyKeys 24 mAll [.space, .space] = some m2 ∧
      (PyVal.str "*" ∈ mAll.selected_items →
        m2.selected_items = {.str "*"} ∧
        m2.selected_groups = (mAll.providers.map Prod.fst).toFinset) ∧
      (PyVal.str "*" ∉ mAll.selected_items →
        m2.selected_items = ∅ ∧ m2.selected_groups = ∅) :=
  C4_amended 24 mAll rfl (by decide)

/-- Helper: one up or down key from a state satisfying viewport
containment continues the loop in a state satisfying it again, for any
terminal of at least 4 lines (so the page holds at least one row). -/
theorem step_nav_preserves (lines : Nat) (hl : 4 ≤ lines) (m : TreeMenu) (k : Key)
    (hk : k = Key.up ∨ k = Key.down) (hinv : viewportInv lines m) :
    ∃ m2, step lines m k = .cont m2 false ∧ viewportInv lines m2 := by
  unfold viewportInv pageSize at hinv
  rcases hk with rfl | rfl
  · by_cases h0 : 0 < m.current_selection
    · refine
        ⟨{ m with
            current_selection := m.current_selection - 1,
            top_line :=
              if m.current_selection - 1 < m.top_line then m.current_selection - 1
              else m.top_line },
          ?_, ?_⟩
      · simp [step, h0]
      · unfold viewportInv pageSize
        show (if m.current_selection - 1 < m.top_line then m.current_selection - 1
              else m.top_line) ≤ m.current_selection - 1 ∧
          m.current_selection - 1 <
            (if m.current_selection - 1 < m.top_line then m.current_selection - 1
             else m.top_line) + (lines - 3)
        split <;> omega
    · exact ⟨m, by simp [step, h0], hinv⟩
  · by_cases h0 : m.current_selection < m.get_flat_menu.length - 1
    · refine
        ⟨{ m with
            current_selection := m.current_selection + 1,
            top_line :=
              if m.top_line + lines - 3 ≤ m.current_selection + 1 then
                m.current_selection + 1 + 4 - lines
              else m.top_line },
          ?_, ?_⟩
      · simp [step, h0]
      · unfold viewportInv pageSize
        show (if m.top_line + lines - 3 ≤ m.current_selection + 1 then
                m.current_selection + 1 + 4 - lines
              else m.top_line) ≤ m.current_selection + 1 ∧
          m.current_selection + 1 <
            (if m.top_line + lines - 3 ≤ m.current_selection + 1 then
               m.current_selection + 1 + 4 - lines
             else m.top_line) + (lines - 3)
        split <;> omega
    · exact ⟨m, by simp [step, h0], hinv⟩

/-- Helper: viewport containment is preserved along any run of up and
down keys. -/
theorem applyKeys_nav_inv (lines : Nat) (hl : 4 ≤ lines) :
    ∀ (ks : List Key) (m : TreeMenu),
      (∀ k ∈ ks, k = Key.up ∨ k = Key.down) → viewportInv lines m →
      ∀ m2, applyKeys lines m ks = some m2 → viewportInv lines m2 := by
  intro ks
  induction ks with
  | nil =>
    intro m _ hinv m2 h
    obtain rfl : m = m2 := by simpa [applyKeys] using h
    exact hinv
  | cons k ks ih =>
    intro m hks hinv m2 h
    obtain ⟨m1, hstep, hinv1⟩ :=
      step_nav_preserves lines hl m k (hks k (List.mem_cons_self k ks)) hinv
    simp only [applyKeys, hstep] at h
    exact ih m1 (fun x hx => hks x (List.mem_cons_of_mem k hx)) hinv1 m2 h

/-- Claim C6: after any sequence of up and down cursor moves from the
freshly constructed widget, the cursor index lies in the window
[top_line, top_line + pageSize), where pageSize is the page the
adjustment rules of src/tree_menu.py lines 99-106 work with (terminal
height minus 3), for any terminal of at least 4 lines. -/
theorem C6_viewport_containment (lines : Nat) (hl : 4 ≤ lines)
    (items : List Item) (inc ss : Bool) (ks : List Key)
    (hks : ∀ k ∈ ks, k = Key.up ∨ k = Key.down) (m2 : TreeMenu)
    (h : applyKeys lines (mkTreeMenu items inc ss) ks = some m2) :
    viewportInv lines m2 :=
  applyKeys_nav_inv lines hl ks (mkTreeMenu items inc ss) hks
    (by
      constructor
      · exact Nat.le_refl 0
      · show 0 < 0 + (lines - 3)
        omega)
    m2 h

/-- The state reached from the fresh scenario widget by one down key. -/
def mDown : TreeMenu := { m0 with current_selection := 1 }

/-- Claim C6 witness: the containment statement applied to one down key
on the fresh scenario widget with a 24-line terminal. -/
theorem C6_viewport_containment_witness : viewportInv 24 mDown :=
  C6_viewport_containment 24 (by omega) catalogXY false false [Key.down]
    (by decide) mDown (by decide)

/-- Claim C9 counterexample: in a catalog mixing a tagged entry with an
untagged one, the untagged entry lands in the ungrouped bucket keyed by
the empty string, and a group header row for that bucket does appear in
the flat view. -/
theorem C9_counterexample :
    Row.provider "" ∈ (mkTreeMenu [itemA, itemU] false false).get_flat_menu ∧
    itemU.groupName = none := by
  decide

/-- Helper: membership among the group keys after one append step of the
providers construction. -/
theorem mem_keys_addToProviders (ps : List (String × List Item)) (k : String)
    (it : Item) (a : String) :
    a ∈ (addToProviders ps k it).map Prod.fst ↔ a ∈ ps.map Prod.fst ∨ a = k := by
  induction ps with
  | nil => simp [addToProviders]
  | cons p rest ih =>
    obtain ⟨k2, xs⟩ := p
    by_cases h : k2 = k
    · subst h
      have he : addToProviders ((k2, xs) :: rest) k2 it = (k2, xs ++ [it]) :: rest := by
        unfold addToProviders
        rw [if_pos rfl]
      rw [he]
      simp only [List.map_cons, List.mem_cons]
      constructor
      · exact fun h => Or.inl h
      · rintro ((h | h) | h)
        · exact Or.inl h
        · exact Or.inr h
        · exact Or.inl h
    · simp only [addToProviders, if_neg h, List.map_cons, List.mem_cons, ih]
      tauto

/-- Helper: the group keys produced by the constructor fold are the keys
already accumulated plus the groupName defaults of the remaining catalog
entries. -/
theorem mem_keys_providers_fold (l : List Item)
    (acc : List (String × List Item)) (a : String) :
    a ∈ (l.foldl (fun ps it => addToProviders ps (it.groupName.getD "") it) acc).map
        Prod.fst
      ↔ a ∈ acc.map Prod.fst ∨ ∃ it ∈ l, it.groupName.getD "" = a := by
  induction l generalizing acc with
  | nil => simp
  | cons x xs ih =>
    simp only [List.foldl_cons]
    rw [ih, mem_keys_addToProviders]
    constructor
    · rintro ((h | h) | ⟨it, hit, hP⟩)
      · exact Or.inl h
      · exact Or.inr ⟨x, List.mem_cons_self x xs, h.symm⟩
      · exact Or.inr ⟨it, List.mem_cons_of_mem x hit, hP⟩
    · rintro (h | ⟨it, hit, hP⟩)
      · exact Or.inl (Or.inl h)
      · rcases List.mem_cons.mp hit with rfl | hmem
        · exact Or.inl (Or.inr hP.symm)
        · exact Or.inr ⟨it, hmem, hP⟩

/-- Helper: when grouping is active, every group key contributes a header
row to the flat view. -/
theorem provider_row_mem_flat (m : TreeMenu) (g : String)
    (hug : m.use_groups = true) (hg : g ∈ m.providers.map Prod.fst) :
    Row.provider g ∈ m.get_flat_menu := by
  unfold TreeMenu.get_flat_menu
  refine List.mem_append.mpr (Or.inr ?_)
  rw [if_pos hug]
  refine List.mem_flatMap.mpr ⟨g, hg, ?_⟩
  exact List.mem_cons_self _ _

/-- Claim C9 (amended): whenever at least one entry carries a group tag,
entries without a tag are collected under the empty-string key and the
flat view contains a group header row with the empty name for that
bucket, contradicting the reading that the ungrouped bucket never appears
as a row of its own. -/
theorem C9_amended (items : List Item) (inc ss : Bool)
    (hsome : usesGroups items = true)
    (hnone : ∃ it ∈ items, it.groupName = none) :
    Row.provider "" ∈ (mkTreeMenu items inc ss).get_flat_menu := by
  apply provider_row_mem_flat
  · exact hsome
  · show "" ∈ (mkProviders items).map Prod.fst
    have hps : mkProviders items = buildProviders items := by
      simp [mkProviders, hsome]
    rw [hps]
    unfold buildProviders
    rw [mem_keys_providers_fold]
    obtain ⟨it, hit, h0⟩ := hnone
    refine Or.inr ⟨it, hit, ?_⟩
    rw [h0]
    rfl

/-- Claim C9 witness: the amended statement applied to a mixed catalog
with the All row enabled. -/
theorem C9_amended_witness :
    Row.provider "" ∈ (mkTreeMenu [itemA, itemU] true false).get_flat_menu :=
  C9_amended [itemA, itemU] true false (by decide) ⟨itemU, by decide, rfl⟩

end TreeMenuModel
